import Mathlib

/-!
Shallow embedding of `bmp.py`, the Black Magic Probe helper script:
device scanning and classification, serial-number selection, GDB
machine-interface reply handling, target-list parsing, the flash
download loop, and the top-level dispatch of `__main__`.

Strings from the Python process are modelled as `String`/`List Char`;
Python `None` becomes `Option`; a Python exception (failed `assert`,
`TypeError`/`ValueError`/`IndexError`) is an explicit error value.
Regular expressions used by the script are embedded as deterministic
matchers over `List Char`, faithful to `re.fullmatch` on the concrete
patterns appearing in the source.
-/

set_option maxRecDepth 4000

deriving instance DecidableEq for Except

namespace Bmp

/-- Python truthiness of an optional string: `None` and `""` are falsy. -/
def truthyS : Option String → Bool
  | none => false
  | some s => s ≠ ""

/-- Characters matched by the regex class `\s` (Python whitespace). -/
def isPySpace (c : Char) : Bool :=
  c = ' ' || c = '\t' || c = '\n' || c = '\r' || c = '\x0b' || c = '\x0c'

/-- Python `int(s)` on a string: optional surrounding whitespace, optional
sign, then at least one digit; `none` models the `ValueError` raised on any
other shape. -/
def pyIntChars (s : List Char) : Option Int :=
  let t := ((s.dropWhile isPySpace).reverse.dropWhile isPySpace).reverse
  let core : List Char → Option Int := fun ds =>
    if ds ≠ [] ∧ (∀ c ∈ ds, c.isDigit) then
      some (Int.ofNat (ds.foldl (fun n c => 10 * n + (c.toNat - '0'.toNat)) 0))
    else none
  match t with
  | '+' :: ds => core ds
  | '-' :: ds => (core ds).map (fun n => -n)
  | ds => core ds

/-- Python `int(x)` where `x` is an optional regex capture: `int(None)`
raises `TypeError`, a non-numeric capture raises `ValueError`; both are
modelled as `none`. -/
def pyIntOpt : Option String → Option Int
  | none => none
  | some s => pyIntChars s.toList

/-- A pygdbmi reply message: its type tag (`result`, `output`, `target`,
`console`, `log`), its status keyword (`message`; empty when absent) and
its payload string. -/
structure Msg where
  type : String
  message : String
  payload : String
deriving DecidableEq

/-- One observable output of `gdb_write_and_wait_for_result`: a printed
reply message, a success note on stdout, or a failure note on stderr. -/
inductive ConsoleOut where
  | msg (m : Msg)
  | note (d : String)
  | errNote (d : String)
deriving DecidableEq

/-- `gdb_write_and_wait_for_result` (bmp.py:71-85), after the command has
been sent: scan the reply stream, printing every message read; at the
first `result` message return `true` with a success note when its status
equals `expected`, else `false` with a failure note on stderr.  `none`
models a stream that ends with no `result` message (the call would block
until the timeout). -/
def writeAndWait (expected description : String) : List Msg → Option (Bool × List ConsoleOut)
  | [] => none
  | m :: rest =>
    if m.type = "result" then
      if m.message = expected then
        some (true, [.msg m, .note (description ++ " successful.")])
      else
        some (false, [.msg m, .errNote (description ++ " failed.")])
    else
      (writeAndWait expected description rest).map (fun r => (r.1, .msg m :: r.2))

/-- The regex `\s*(\d)+\s*(.*)\\n` of bmp.py:61 full-matched against a
`target` payload: optional leading whitespace, at least one digit,
optional whitespace, then the captured description (group 2) followed by
the literal two-character marker backslash-`n`; `.` does not match an
actual newline character.  Returns group 2 on success. -/
def matchTarget (s : List Char) : Option (List Char) :=
  let s1 := s.dropWhile isPySpace
  if (s1.headD 'x').isDigit then
    let t := (s1.dropWhile Char.isDigit).dropWhile isPySpace
    let d := t.take (t.length - 2)
    if t.drop (t.length - 2) = ['\\', 'n'] ∧ (∀ x ∈ d, x ≠ '\n') then
      some d
    else none
  else none

/-- Result of `detect_targets`: the collected target list, or the fatal
assertion on a terminating `result` whose status is not `done`. -/
inductive ScanOut where
  | ok (targets : List String)
  | fatal
deriving DecidableEq

/-- `detect_targets` (bmp.py:56-68): collect the descriptions of matching
`target` messages, in arrival order, until a `result` message terminates
the stream; a `result` status other than `done` fails the assertion.
`none` models a stream with no `result` message (the loop would block for
another batch until the timeout). -/
def detect_targets : List Msg → Option ScanOut
  | [] => none
  | m :: rest =>
    if m.type = "result" then
      some (if m.message = "done" then .ok [] else .fatal)
    else
      let tail := detect_targets rest
      if m.type = "target" then
        match matchTarget m.payload.toList with
        | some d =>
          match tail with
          | some (.ok ts) => some (.ok (String.mk d :: ts))
          | other => other
        | none => tail
      else tail

/-- A serial port descriptor as produced by `serial.tools.list_ports`. -/
structure Port where
  device : String
  vid : Nat
  pid : Nat
  serial_number : String
  location : String
  interface : String
deriving DecidableEq

/-- `search_serial` (bmp.py:49-52): the device path of the first entry
whose serial number contains `snr` as a substring; the Python function
falls off the loop and returns `None` when no entry matches. -/
def search_serial (snr : String) : List Port → Option String
  | [] => none
  | p :: l =>
    if snr.toList <:+: p.serial_number.toList then some p.device
    else search_serial snr l

/-- Character class `[A-F0-9]` of the usbmodem pattern. -/
def isHexUpDigit (c : Char) : Bool :=
  ('A' ≤ c && c ≤ 'F') || c.isDigit

/-- The regex `/dev/cu\.usbmodem([A-F0-9]*)1` of bmp.py:40 full-matched
against a device path: the fixed prefix, then a run of `[A-F0-9]`
characters whose last character is `1`. -/
def usbmodemMatch (device : String) : Bool :=
  let l := device.toList
  let pre := "/dev/cu.usbmodem".toList
  pre.isPrefixOf l &&
    (let rest := l.drop pre.length
     decide (rest ≠ []) && rest.getLast? = some '1' && rest.dropLast.all isHexUpDigit)

/-- The control/data heuristic of bmp.py:39-41, evaluated left to right
with Python's short-circuiting; `none` models the `IndexError` raised by
`p.location[-1]` when the location string is empty. -/
def classify (p : Port) : Option Bool :=
  if p.interface = "Black Magic GDB Server" then some true
  else if usbmodemMatch p.device then some true
  else
    match p.location.toList.getLast? with
    | none => none
    | some c => some (c = '0')

/-- The vendor/product-id filter of bmp.py:38. -/
def retained (p : Port) : Bool :=
  decide (p.vid = 0x1D50) && (decide (p.pid = 0x6018) || decide (p.pid = 0x6017))

/-- `detect_probes` (bmp.py:34-45) over a given enumeration: keep the
ports passing the vendor/product filter and partition them, in
enumeration order, into GDB (control) and UART (data) interfaces; `none`
when the heuristic crashes on some retained port. -/
def detect_probes : List Port → Option (List Port × List Port)
  | [] => some ([], [])
  | p :: ps =>
    if retained p then
      match classify p with
      | none => none
      | some true => (detect_probes ps).map (fun gu => (p :: gu.1, gu.2))
      | some false => (detect_probes ps).map (fun gu => (gu.1, p :: gu.2))
    else detect_probes ps

/-- The five captures of the download-progress regex of bmp.py:197-199:
section name, section bytes sent, section size, total bytes sent, total
size; every capture is optional. -/
structure DlGroups where
  sec : Option String
  secSent : Option String
  secSize : Option String
  totSent : Option String
  totSize : Option String
deriving DecidableEq

/-- The lazy group `(.*?)"`: the captured value runs to the first closing
quote and may not contain an actual newline; `none` when no closing quote
is reachable (the optional group, and with it the whole full-match, then
fails, since no later pattern element can consume the field text). -/
def splitAtQuote : List Char → Option (List Char × List Char)
  | [] => none
  | c :: rest =>
    if c = '"' then some ([], rest)
    else if c = '\n' then none
    else (splitAtQuote rest).map (fun vr => (c :: vr.1, vr.2))

/-- The optional comma `,?` following each optional field group. -/
def dropComma : List Char → List Char
  | ',' :: rest => rest
  | s => s

/-- One optional field group with its trailing optional comma, i.e. the
regex fragment matching a quoted field value after its literal name. -/
def parseOptField (name : List Char) (s : List Char) : Option (Option (List Char) × List Char) :=
  if (name ++ ['=', '"']).isPrefixOf s then
    match splitAtQuote (s.drop (name.length + 2)) with
    | none => none
    | some vr => some (some vr.1, dropComma vr.2)
  else some (none, dropComma s)

/-- The download-progress regex of bmp.py:197-199 full-matched against an
`output` payload: the literal `+download` header, then the five optional
quoted fields each followed by an optional comma, then the closing brace. -/
def matchDownload (s : List Char) : Option DlGroups :=
  let pre := "+download,\x7b".toList
  if pre.isPrefixOf s then
    match parseOptField "section".toList (s.drop pre.length) with
    | none => none
    | some g1 =>
      match parseOptField "section-sent".toList g1.2 with
      | none => none
      | some g2 =>
        match parseOptField "section-size".toList g2.2 with
        | none => none
        | some g3 =>
          match parseOptField "total-sent".toList g3.2 with
          | none => none
          | some g4 =>
            match parseOptField "total-size".toList g4.2 with
            | none => none
            | some g5 =>
              if g5.2 = ['\x7d'] then
                some ⟨g1.1.map String.mk, g2.1.map String.mk, g3.1.map String.mk,
                      g4.1.map String.mk, g5.1.map String.mk⟩
              else none
  else none

/-- The mutable state of the flash loop of bmp.py:183-215: the first-event
flag, the currently displayed section (`None` initially), and the
progress-bar instance (started flag, maximum and current position; the
initial `ProgressBar()` is idle with the library default maximum 100). -/
structure FlashState where
  first : Bool
  currentSec : Option String
  pbarStarted : Bool
  pbarMax : Int
  pbarVal : Int
deriving DecidableEq

def initFlashState : FlashState :=
  { first := true, currentSec := none, pbarStarted := false, pbarMax := 100, pbarVal := 0 }

/-- The user-visible prints of the flash loop: the one-time total-size
banner, the per-section banner, and the completion notice. -/
inductive FlashOut where
  | banner (totalSize : Int)
  | secBanner (sec : Option String) (size : Int)
  | finished
deriving DecidableEq

/-- A flash-loop failure: the fatal `assert` on a non-`done` download
result, or the uncaught `TypeError`/`ValueError` of `int()` applied to a
missing or non-numeric capture. -/
inductive FlashErr where
  | failed
  | intError
deriving DecidableEq

/-- bmp.py:201-203: on the first matching event, print the banner with
`int(m.group(5))`; `int(None)` raises when total-size was not captured. -/
def bannerStep (st : FlashState) (gr : DlGroups) : List FlashOut × Except FlashErr FlashState :=
  if st.first then
    match pyIntOpt gr.totSize with
    | none => ([], .error .intError)
    | some n => ([.banner n], .ok { st with first := false })
  else ([], .ok st)

/-- bmp.py:204-211: on a section change, start a fresh progress bar scaled
by `int(m.group(3))` and print the section banner; `int(None)` raises when
section-size was not captured. -/
def secStep (st : FlashState) (gr : DlGroups) : List FlashOut × Except FlashErr FlashState :=
  if gr.sec ≠ st.currentSec then
    match pyIntOpt gr.secSize with
    | none => ([], .error .intError)
    | some sz =>
      ([.secBanner gr.sec sz],
       .ok { st with currentSec := gr.sec, pbarStarted := true, pbarMax := sz, pbarVal := 0 })
  else ([], .ok st)

/-- bmp.py:212-213: a truthy section-sent capture advances the bar to the
absolute value `int(m.group(2))`. -/
def sentStep (st : FlashState) (gr : DlGroups) : Except FlashErr FlashState :=
  match gr.secSent with
  | some s =>
    if s ≠ "" then
      match pyIntChars s.toList with
      | none => .error .intError
      | some v => .ok { st with pbarVal := v }
    else .ok st
  | none => .ok st

/-- One message through the body of the flash loop (bmp.py:188-213): the
prints it emits, and either an error or the new state together with the
flag that the loop keeps running (`false` after the terminating result). -/
def flashStep (st : FlashState) (m : Msg) : List FlashOut × Except FlashErr (FlashState × Bool) :=
  if m.type = "result" then
    if m.message = "done" then ([.finished], .ok (st, false))
    else ([], .error .failed)
  else if m.type = "output" then
    match matchDownload m.payload.toList with
    | none => ([], .ok (st, true))
    | some gr =>
      match bannerStep st gr with
      | (o1, .error e) => (o1, .error e)
      | (o1, .ok st1) =>
        match secStep st1 gr with
        | (o2, .error e) => (o1 ++ o2, .error e)
        | (o2, .ok st2) =>
          match sentStep st2 gr with
          | .error e => (o1 ++ o2, .error e)
          | .ok st3 => (o1 ++ o2, .ok (st3, true))
  else ([], .ok (st, true))

/-- The flash loop over a finite reply stream: accumulated prints, and
either the crash, or the final state (`none` when the stream ran out with
the download still in progress, i.e. the loop would block for the next
batch). Messages after the terminating result are not consumed. -/
def flashRun (st : FlashState) : List Msg → List FlashOut × Except FlashErr (Option FlashState)
  | [] => ([], .ok none)
  | m :: rest =>
    match flashStep st m with
    | (o, .error e) => (o, .error e)
    | (o, .ok (st', false)) => (o, .ok (some st'))
    | (o, .ok (st', true)) =>
      let r := flashRun st' rest
      (o ++ r.1, r.2)

/-- Number of one-time total-size banners among the prints. -/
def bannerCount (l : List FlashOut) : Nat :=
  l.countP (fun o => match o with | .banner _ => true | _ => false)

/-- Whether a matching download event occurs before any result message,
and the first such event carries a parseable total size (so the banner is
printed rather than crashing). -/
def firstDlOk : List Msg → Bool
  | [] => false
  | m :: rest =>
    if m.type = "result" then false
    else if m.type = "output" then
      match matchDownload m.payload.toList with
      | some gr => (pyIntOpt gr.totSize).isSome
      | none => firstDlOk rest
    else firstDlOk rest

/-- The parsed command line (bmp.py:15-28): store-true flags are `Bool`,
valued options are `Option String` (`none` when not supplied, as argparse
defaults them to `None`), and `attach`/`gdb_path`/`term_cmd` carry their
documented defaults when absent. -/
structure Args where
  jtag : Bool
  swd : Bool
  connect_srst : Bool
  tpwr : Bool
  serial : Option String
  port : Option String
  attach : String
  gdb_path : String
  term_cmd : String
  action : String
  file : Option String
deriving DecidableEq

/-- Externally visible actions of `__main__`, in program order: the device
enumeration, the spawn of the GDB process, each command written to it, a
shell command launched via `os.system`, and the printed target list. -/
inductive Ev where
  | enumerate
  | spawnGdb (path : String)
  | writeCmd (c : String)
  | osSystem (c : String)
  | printTargets (ts : List String)
deriving DecidableEq

/-- How a run ends: a clean `sys.exit(0)` (or falling off the script), a
failed `assert` with its message, an uncaught Python exception, or a run
that would still be blocked reading replies when the modelled streams end. -/
inductive Outcome where
  | exitOk
  | fatalAssert (msg : String)
  | pyError (msg : String)
  | incomplete
deriving DecidableEq

/-- The environment a run consumes: the OS device enumeration, and one
pre-recorded reply stream per GDB command written (in write order). -/
structure Env where
  ports : List Port
  replies : List (List Msg)
deriving DecidableEq

/-- Python `fmt % arg` for a single `%s` placeholder (bmp.py:103). -/
def formatFirst : List Char → List Char → List Char
  | [], _ => []
  | '%' :: 's' :: rest, arg => arg ++ rest
  | c :: rest, arg => c :: formatFirst rest arg

/-- Port selection (bmp.py:97-102 and 115-120): an explicit truthy
`--port` wins verbatim; else a truthy `--serial` is looked up in the list
with `assert port` failing on a falsy result (`None`, or an empty device
path); else the default first device is used. -/
def choosePort (aPort aSerial : Option String) (dflt : String) (l : List Port) : Except Unit String :=
  if truthyS aPort then .ok (aPort.getD dflt)
  else if truthyS aSerial then
    match search_serial (aSerial.getD "") l with
    | none => .error ()
    | some d => if d = "" then .error () else .ok d
  else .ok dflt

/-- The interactive GDB command line assembled by the `debug` action
(bmp.py:128-138). -/
def debugCmd (a : Args) (port : String) : String :=
  let fname := match a.file with
    | some f => if f ≠ "" then f else ""
    | none => ""
  let base := ["-ex 'target extended-remote " ++ port ++ "'"]
  let withTpwr := base ++ (if a.tpwr then ["-ex 'monitor tpwr enable'"] else [])
  let withSrst := withTpwr ++ (if a.connect_srst then ["-ex 'monitor connect_srst enable'"] else [])
  let withScan := withSrst ++
    [if a.jtag then "-ex 'monitor jtag_scan'" else "-ex 'monitor swdp_scan'"]
  let withAttach := withScan ++ ["-ex 'attach " ++ a.attach ++ "'"]
  String.intercalate " " ([a.gdb_path] ++ withAttach ++ [fname])

/-- An optional option-setting write (bmp.py:146-149): when the flag is
set, write the command and consume its reply stream (the script discards
the reply); otherwise do nothing. -/
def optWrite (flag : Bool) (cmd : String) (rs : List (List Msg)) : List Ev × List (List Msg) :=
  if flag then ([.writeCmd cmd], rs.tail) else ([], rs)

/-- The scan command selected by the transport flag (bmp.py:152-157). -/
def scanCmdOf (jtag : Bool) : String :=
  if jtag then "monitor jtag_scan" else "monitor swdp_scan"

/-- The scripted-mode tail of `__main__` (bmp.py:141-220): spawn GDB in
machine-interface mode and drive it command by command.  Each `write`
consumes the next pre-recorded reply stream of `rs` (the two option
writes of bmp.py:146-149 consume a stream but ignore it, as the script
discards their replies).  Returns the events from the spawn on, and the
outcome. -/
def scripted (a : Args) (port : String) (rs : List (List Msg)) : List Ev × Outcome :=
  let cmd1 := "-target-select extended-remote " ++ port
  let ev0 : List Ev := [.spawnGdb a.gdb_path, .writeCmd cmd1]
  match writeAndWait "connected" "connecting" (rs.headD []) with
  | none => (ev0, .incomplete)
  | some (false, _) => (ev0, .fatalAssert "connecting failed")
  | some (true, _) =>
    let s2 := optWrite a.connect_srst "monitor connect_srst enable" rs.tail
    let s3 := optWrite a.tpwr "monitor tpwr enable" s2.2
    let evScan := ev0 ++ s2.1 ++ s3.1 ++ [.writeCmd (scanCmdOf a.jtag)]
    match detect_targets (s3.2.headD []) with
    | none => (evScan, .incomplete)
    | some .fatal => (evScan, .fatalAssert "scan result was not done")
    | some (.ok targets) =>
      if targets.length = 0 then (evScan, .fatalAssert "no targets found")
      else
        let evT := evScan ++ [.printTargets targets]
        if a.action = "list" then (evT, .exitOk)
        else
          let rs4 := s3.2.tail
          let evA := evT ++ [.writeCmd ("-target-attach " ++ a.attach)]
          match writeAndWait "done" "attaching to target" (rs4.headD []) with
          | none => (evA, .incomplete)
          | some (false, _) => (evA, .fatalAssert "attaching to target failed")
          | some (true, _) =>
            let rs5 := rs4.tail
            if a.action = "reset" then
              let evR := evA ++ [.writeCmd "monitor hard_srst"]
              match writeAndWait "done" "resetting target" (rs5.headD []) with
              | none => (evR, .incomplete)
              | some (false, _) => (evR, .fatalAssert "resetting target failed")
              | some (true, _) => (evR, .exitOk)
            else if a.action = "erase" then
              let evE := evA ++ [.writeCmd "-target-flash-erase"]
              match writeAndWait "done" "erasing target" (rs5.headD []) with
              | none => (evE, .incomplete)
              | some (false, _) => (evE, .fatalAssert "erasing target failed")
              | some (true, _) => (evE, .exitOk)
            else if a.action = "flash" then
              let evD := evA ++ [.writeCmd "-target-download"]
              match (flashRun initFlashState (rs5.headD [])).2 with
              | .error .failed => (evD, .fatalAssert "download failed")
              | .error .intError => (evD, .pyError "TypeError")
              | .ok none => (evD, .incomplete)
              | .ok (some _) =>
                let rs6 := rs5.tail
                let evC := evD ++ [.writeCmd "compare-sections"]
                match writeAndWait "done" "checking flash" (rs6.headD []) with
                | none => (evC, .incomplete)
                | some (false, _) => (evC, .fatalAssert "checking flash failed")
                | some (true, _) =>
                  let evK := evC ++ [.writeCmd "kill"]
                  match writeAndWait "done" "killing" (rs6.tail.headD []) with
                  | none => (evK, .incomplete)
                  | some (false, _) => (evK, .fatalAssert "killing failed")
                  | some (true, _) => (evK, .exitOk)
            else (evA, .exitOk)

/-- `__main__` (bmp.py:88-220): the two mutual-exclusivity asserts, the
probe scan with its non-empty assert, then the `term`, `debug` and
scripted branches.  In the `term` branch `u[0].device` is evaluated
before `--port`/`--serial` are consulted, so an empty data-interface list
raises `IndexError` there. -/
def mainRun (a : Args) (env : Env) : List Ev × Outcome :=
  if a.swd && a.jtag then ([], .fatalAssert "you may only choose one protocol")
  else if truthyS a.serial && truthyS a.port then
    ([], .fatalAssert "you may only specify the probe by port or by serial")
  else
    match detect_probes env.ports with
    | none => ([.enumerate], .pyError "IndexError")
    | some (g, u) =>
      match g with
      | [] => ([.enumerate], .fatalAssert "no Black Magic Probes found")
      | g0 :: _ =>
        if a.action = "term" then
          match u with
          | [] => ([.enumerate], .pyError "IndexError")
          | u0 :: _ =>
            match choosePort a.port a.serial u0.device u with
            | .error _ => ([.enumerate], .fatalAssert "no BMP with this serial found")
            | .ok port =>
              ([.enumerate, .osSystem (String.mk (formatFirst a.term_cmd.toList port.toList))],
               .exitOk)
        else
          match choosePort a.port a.serial g0.device g with
          | .error _ => ([.enumerate], .fatalAssert "no BMP with this serial found")
          | .ok port =>
            if a.action = "debug" then
              ([.enumerate, .osSystem (debugCmd a port)], .exitOk)
            else
              let r := scripted a port env.replies
              (.enumerate :: r.1, r.2)

/-! ### Helper lemmas -/

theorem dropWhile_append_of_all {p : Char → Bool} {l1 l2 : List Char}
    (h : ∀ c ∈ l1, p c = true) :
    (l1 ++ l2).dropWhile p = l2.dropWhile p := by
  induction l1 with
  | nil => rfl
  | cons c l ih =>
    simp only [List.cons_append, List.dropWhile_cons, h c (by simp)]
    exact ih (fun x hx => h x (by simp [hx]))

theorem dropWhile_cons_of_neg {p : Char → Bool} {c : Char} {l : List Char}
    (h : p c = false) : (c :: l).dropWhile p = c :: l := by
  simp [List.dropWhile_cons, h]

theorem isDigit_eq_false_of_isPySpace {c : Char} (h : isPySpace c = true) :
    c.isDigit = false := by
  unfold isPySpace at h
  simp only [Bool.or_eq_true, decide_eq_true_eq] at h
  rcases h with ((((h | h) | h) | h) | h) | h <;> subst h <;> decide

theorem isPySpace_eq_false_of_isDigit {c : Char} (h : c.isDigit = true) :
    isPySpace c = false := by
  cases hs : isPySpace c
  · rfl
  · rw [isDigit_eq_false_of_isPySpace hs] at h
    exact absurd h (by simp)

/-! ### C1 -/

/-- C1: in scripted mode, `gdb_write_and_wait_for_result` reads replies up
to and including the first terminating `result` message, printing every
message it reads; it returns `true` together with a success note exactly
when that result's status equals the expected status, and otherwise prints
a failure note to stderr and returns `false`. -/
theorem writeAndWait_spec (expected description : String) (pre : List Msg) (r : Msg)
    (suf : List Msg) (hpre : ∀ m ∈ pre, m.type ≠ "result") (hr : r.type = "result") :
    writeAndWait expected description (pre ++ r :: suf) =
      some (decide (r.message = expected),
        pre.map ConsoleOut.msg ++
          [ConsoleOut.msg r,
           if r.message = expected then ConsoleOut.note (description ++ " successful.")
           else ConsoleOut.errNote (description ++ " failed.")]) := by
  induction pre with
  | nil =>
    by_cases h : r.message = expected <;> simp [writeAndWait, hr, h]
  | cons m pre ih =>
    have hm : m.type ≠ "result" := hpre m (by simp)
    have ih' := ih (fun x hx => hpre x (by simp [hx]))
    simp only [List.cons_append, writeAndWait, if_neg hm, List.append_eq]
    rw [ih']
    simp

/-- Witness for C1 at a concrete reply stream whose result is not the
expected status. -/
theorem writeAndWait_spec_witness :
    writeAndWait "done" "erasing target"
      [⟨"console", "", "x"⟩, ⟨"result", "error", ""⟩, ⟨"log", "", "y"⟩] =
      some (false,
        [ConsoleOut.msg ⟨"console", "", "x"⟩, ConsoleOut.msg ⟨"result", "error", ""⟩,
         ConsoleOut.errNote "erasing target failed."]) := by
  have h := writeAndWait_spec "done" "erasing target" [⟨"console", "", "x"⟩]
    ⟨"result", "error", ""⟩ [⟨"log", "", "y"⟩] (by decide) rfl
  simpa using h

/-! ### C5 -/

/-- C5: during target-list parsing, a terminating `result` message whose
status is anything other than `done` fails the assertion (fatal),
regardless of how many target messages were parsed before it. -/
theorem detect_targets_error_fatal (pre : List Msg) (r : Msg) (suf : List Msg)
    (hpre : ∀ m ∈ pre, m.type ≠ "result") (hr : r.type = "result")
    (hmsg : r.message ≠ "done") :
    detect_targets (pre ++ r :: suf) = some ScanOut.fatal := by
  induction pre with
  | nil => simp [detect_targets, hr, hmsg]
  | cons m pre ih =>
    have hm : m.type ≠ "result" := hpre m (by simp)
    have ih' := ih (fun x hx => hpre x (by simp [hx]))
    simp only [List.cons_append, detect_targets, if_neg hm, List.append_eq]
    rw [ih']
    by_cases ht : m.type = "target"
    · simp only [if_pos ht]
      cases matchTarget m.payload.toList <;> simp
    · simp [ht]

/-- Witness for C5: two parsed targets, then an `error` result. -/
theorem detect_targets_error_fatal_witness :
    detect_targets [⟨"target", "", "1  STM32F4\\n"⟩, ⟨"target", "", "2  STM32F1\\n"⟩,
      ⟨"result", "error", ""⟩] = some ScanOut.fatal :=
  detect_targets_error_fatal
    [⟨"target", "", "1  STM32F4\\n"⟩, ⟨"target", "", "2  STM32F1\\n"⟩]
    ⟨"result", "error", ""⟩ [] (by decide) rfl (by decide)

/-! ### C2 -/

/-- C2: the concrete two-target example parses to `["STM32F4", "STM32F1"]`
in arrival order; in general, until the terminating `done` result, every
`target` message contributes its captured description in arrival order and
non-matching target messages are silently skipped; and every payload of
the form leading-whitespace, index digits, whitespace, description,
trailing backslash-n marker is captured with exactly that description. -/
theorem detect_targets_spec :
    (detect_targets [⟨"target", "", "1  STM32F4\\n"⟩, ⟨"target", "", "2  STM32F1\\n"⟩,
        ⟨"result", "done", ""⟩] = some (ScanOut.ok ["STM32F4", "STM32F1"])) ∧
    (∀ (pre : List Msg) (r : Msg) (suf : List Msg),
      (∀ m ∈ pre, m.type ≠ "result") → r.type = "result" → r.message = "done" →
      detect_targets (pre ++ r :: suf) =
        some (ScanOut.ok (pre.filterMap
          (fun m => if m.type = "target" then (matchTarget m.payload.toList).map String.mk
                    else none)))) ∧
    (∀ (lead num ws desc : List Char),
      (∀ c ∈ lead, isPySpace c = true) → num ≠ [] → (∀ c ∈ num, c.isDigit = true) →
      (∀ c ∈ ws, isPySpace c = true) →
      (∀ c ∈ desc.take 1, isPySpace c = false ∧ c.isDigit = false) →
      (∀ c ∈ desc, c ≠ '\n') →
      matchTarget (lead ++ num ++ ws ++ desc ++ ['\\', 'n']) = some desc) := by
  refine ⟨by decide, ?_, ?_⟩
  · intro pre r suf hpre hr hdone
    induction pre with
    | nil => simp [detect_targets, hr, hdone]
    | cons m pre ih =>
      have hm : m.type ≠ "result" := hpre m (by simp)
      have ih' := ih (fun x hx => hpre x (by simp [hx]))
      simp only [List.cons_append, detect_targets, if_neg hm, List.append_eq]
      rw [ih']
      by_cases ht : m.type = "target"
      · simp only [if_pos ht, List.filterMap_cons, ht, if_true]
        cases matchTarget m.payload.toList <;> simp
      · simp [ht]
  · intro lead num ws desc hlead hnum0 hnum hws hdesc1 hdescn
    obtain ⟨n, num', rfl⟩ := List.exists_cons_of_ne_nil hnum0
    have hnd : n.isDigit = true := hnum n (by simp)
    have hns : isPySpace n = false := isPySpace_eq_false_of_isDigit hnd
    have hnum' : ∀ c ∈ num', c.isDigit = true := fun c hc => hnum c (by simp [hc])
    have htail : (desc ++ ['\\', 'n']).dropWhile isPySpace = desc ++ ['\\', 'n'] := by
      cases desc with
      | nil => exact dropWhile_cons_of_neg (by decide)
      | cons d ds =>
        exact dropWhile_cons_of_neg (hdesc1 d (by simp)).1
    have htaild : (desc ++ ['\\', 'n']).dropWhile Char.isDigit = desc ++ ['\\', 'n'] := by
      cases desc with
      | nil => exact dropWhile_cons_of_neg (by decide)
      | cons d ds =>
        exact dropWhile_cons_of_neg (hdesc1 d (by simp)).2
    have hs1 : (lead ++ (n :: num') ++ ws ++ desc ++ ['\\', 'n']).dropWhile isPySpace =
        n :: (num' ++ (ws ++ (desc ++ ['\\', 'n']))) := by
      have he : lead ++ (n :: num') ++ ws ++ desc ++ ['\\', 'n'] =
          lead ++ (n :: (num' ++ (ws ++ (desc ++ ['\\', 'n'])))) := by simp
      rw [he, dropWhile_append_of_all hlead]
      exact dropWhile_cons_of_neg hns
    have ht : ((n :: (num' ++ (ws ++ (desc ++ ['\\', 'n'])))).dropWhile
        Char.isDigit).dropWhile isPySpace = desc ++ ['\\', 'n'] := by
      rw [List.dropWhile_cons]
      simp only [hnd, if_true]
      rw [dropWhile_append_of_all hnum']
      cases ws with
      | nil =>
        simp only [List.nil_append]
        rw [htaild, htail]
      | cons w ws' =>
        have hw : isPySpace w = true := hws w (by simp)
        rw [List.cons_append, dropWhile_cons_of_neg (isDigit_eq_false_of_isPySpace hw),
          ← List.cons_append, dropWhile_append_of_all hws, htail]
    have hlen : (desc ++ ['\\', 'n']).length - 2 = desc.length := by simp
    have hdrop : (desc ++ ['\\', 'n']).drop desc.length = ['\\', 'n'] := List.drop_left desc _
    have htake : (desc ++ ['\\', 'n']).take desc.length = desc := List.take_left desc _
    simp only [matchTarget, hs1, List.headD_cons, hnd, if_true, ht, hlen, hdrop, htake]
    simp
    exact fun h => hdescn '\n' h rfl

/-- Witness for C2's quantified parts: a skipped console message and one
well-formed target payload built from its pieces. -/
theorem detect_targets_spec_witness :
    matchTarget (" ".toList ++ "42".toList ++ "\t".toList ++ "Foo Bar".toList ++ ['\\', 'n']) =
      some "Foo Bar".toList ∧
    detect_targets [⟨"console", "", "hi"⟩, ⟨"target", "", "bad payload"⟩,
      ⟨"result", "done", ""⟩] = some (ScanOut.ok []) := by
  constructor
  · exact detect_targets_spec.2.2 " ".toList "42".toList "\t".toList "Foo Bar".toList
      (by decide) (by decide) (by decide) (by decide) (by decide) (by decide)
  · have h := detect_targets_spec.2.1 [⟨"console", "", "hi"⟩, ⟨"target", "", "bad payload"⟩]
      ⟨"result", "done", ""⟩ [] (by decide) rfl rfl
    simpa using h

/-! ### C3 -/

theorem retained_iff (p : Port) :
    retained p = true ↔ (p.vid = 0x1D50 ∧ (p.pid = 0x6018 ∨ p.pid = 0x6017)) := by
  unfold retained
  simp

theorem classify_eq_some_true_iff (p : Port) :
    classify p = some true ↔
      (p.interface = "Black Magic GDB Server" ∨ usbmodemMatch p.device = true ∨
        p.location.toList.getLast? = some '0') := by
  unfold classify
  by_cases h1 : p.interface = "Black Magic GDB Server"
  · simp [h1]
  · by_cases h2 : usbmodemMatch p.device = true
    · simp [h1, h2]
    · cases hg : p.location.toList.getLast? with
      | none => simp [h1, h2, hg]
      | some c => by_cases hc : c = '0' <;> simp [h1, h2, hg, hc]

theorem classify_eq_some_false_not (p : Port) (h : classify p = some false) :
    ¬(p.interface = "Black Magic GDB Server" ∨ usbmodemMatch p.device = true ∨
      p.location.toList.getLast? = some '0') := by
  intro hcond
  rw [← classify_eq_some_true_iff] at hcond
  rw [h] at hcond
  simp at hcond

theorem detect_probes_classify : ∀ (ps : List Port) (gu : List Port × List Port),
    detect_probes ps = some gu → ∀ p ∈ ps, retained p = true → classify p ≠ none := by
  intro ps
  induction ps with
  | nil => intro gu h p hp; simp at hp
  | cons q ps ih =>
    intro gu h p hp hr
    by_cases hq : retained q = true
    · simp only [detect_probes, if_pos hq] at h
      cases hc : classify q with
      | none => rw [hc] at h; simp at h
      | some b =>
        rw [hc] at h
        rcases List.mem_cons.mp hp with rfl | hp'
        · simp [hc]
        · cases b <;> simp only [Option.map_eq_some'] at h <;>
            obtain ⟨gu', hps, -⟩ := h <;> exact ih gu' hps p hp' hr
    · simp only [detect_probes, if_neg hq] at h
      rcases List.mem_cons.mp hp with rfl | hp'
      · exact absurd hr hq
      · exact ih _ h p hp' hr

theorem detect_probes_mem : ∀ (ps g u : List Port), detect_probes ps = some (g, u) →
    ∀ p : Port,
      (p ∈ g ↔ p ∈ ps ∧ retained p = true ∧ classify p = some true) ∧
      (p ∈ u ↔ p ∈ ps ∧ retained p = true ∧ classify p = some false) := by
  intro ps
  induction ps with
  | nil =>
    intro g u h p
    simp only [detect_probes, Option.some.injEq, Prod.mk.injEq] at h
    obtain ⟨rfl, rfl⟩ := h.symm
    simp
  | cons q ps ih =>
    intro g u h p
    by_cases hq : retained q = true
    · simp only [detect_probes, if_pos hq] at h
      cases hc : classify q with
      | none => rw [hc] at h; simp at h
      | some b =>
        rw [hc] at h
        cases b
        · simp only [Option.map_eq_some'] at h
          obtain ⟨⟨g', u'⟩, hps, heq⟩ := h
          simp only [Prod.mk.injEq] at heq
          obtain ⟨rfl, rfl⟩ := heq
          obtain ⟨ihg, ihu⟩ := ih g' u' hps p
          constructor
          · rw [ihg]
            constructor
            · rintro ⟨hmem, hr, hct⟩
              exact ⟨by simp [hmem], hr, hct⟩
            · rintro ⟨hmem, hr, hct⟩
              rcases List.mem_cons.mp hmem with rfl | hmem'
              · rw [hc] at hct; simp at hct
              · exact ⟨hmem', hr, hct⟩
          · rw [List.mem_cons, ihu]
            constructor
            · rintro (rfl | ⟨hmem, hr, hcf⟩)
              · exact ⟨by simp, hq, hc⟩
              · exact ⟨by simp [hmem], hr, hcf⟩
            · rintro ⟨hmem, hr, hcf⟩
              rcases List.mem_cons.mp hmem with rfl | hmem'
              · exact Or.inl rfl
              · exact Or.inr ⟨hmem', hr, hcf⟩
        · simp only [Option.map_eq_some'] at h
          obtain ⟨⟨g', u'⟩, hps, heq⟩ := h
          simp only [Prod.mk.injEq] at heq
          obtain ⟨rfl, rfl⟩ := heq
          obtain ⟨ihg, ihu⟩ := ih g' u' hps p
          constructor
          · rw [List.mem_cons, ihg]
            constructor
            · rintro (rfl | ⟨hmem, hr, hct⟩)
              · exact ⟨by simp, hq, hc⟩
              · exact ⟨by simp [hmem], hr, hct⟩
            · rintro ⟨hmem, hr, hct⟩
              rcases List.mem_cons.mp hmem with rfl | hmem'
              · exact Or.inl rfl
              · exact Or.inr ⟨hmem', hr, hct⟩
          · rw [ihu]
            constructor
            · rintro ⟨hmem, hr, hcf⟩
              exact ⟨by simp [hmem], hr, hcf⟩
            · rintro ⟨hmem, hr, hcf⟩
              rcases List.mem_cons.mp hmem with rfl | hmem'
              · rw [hc] at hcf; simp at hcf
              · exact ⟨hmem', hr, hcf⟩
    · simp only [detect_probes, if_neg hq] at h
      obtain ⟨ihg, ihu⟩ := ih g u h p
      constructor
      · rw [ihg]
        constructor
        · rintro ⟨hmem, hr, hct⟩
          exact ⟨by simp [hmem], hr, hct⟩
        · rintro ⟨hmem, hr, hct⟩
          rcases List.mem_cons.mp hmem with rfl | hmem'
          · exact absurd hr hq
          · exact ⟨hmem', hr, hct⟩
      · rw [ihu]
        constructor
        · rintro ⟨hmem, hr, hcf⟩
          exact ⟨by simp [hmem], hr, hcf⟩
        · rintro ⟨hmem, hr, hcf⟩
          rcases List.mem_cons.mp hmem with rfl | hmem'
          · exact absurd hr hq
          · exact ⟨hmem', hr, hcf⟩

/-- C3: a scanned device is kept exactly when its vendor id is `0x1D50`
and its product id is `0x6018` or `0x6017`; each kept device lands in
exactly one of the control (GDB) and data (UART) lists, in the control
list exactly when the interface label, the usbmodem device-path pattern,
or a `'0'`-final bus location says so; all other devices appear in
neither list. -/
theorem detect_probes_partition (ps g u : List Port) (h : detect_probes ps = some (g, u))
    (p : Port) :
    ((p ∈ g ∨ p ∈ u) ↔ (p ∈ ps ∧ p.vid = 0x1D50 ∧ (p.pid = 0x6018 ∨ p.pid = 0x6017))) ∧
    ¬(p ∈ g ∧ p ∈ u) ∧
    (p ∈ g → (p.interface = "Black Magic GDB Server" ∨ usbmodemMatch p.device = true ∨
      p.location.toList.getLast? = some '0')) ∧
    (p ∈ u → ¬(p.interface = "Black Magic GDB Server" ∨ usbmodemMatch p.device = true ∨
      p.location.toList.getLast? = some '0')) := by
  obtain ⟨hg, hu⟩ := detect_probes_mem ps g u h p
  refine ⟨?_, ?_, ?_, ?_⟩
  · constructor
    · rintro (hmem | hmem)
      · obtain ⟨hps, hr, -⟩ := hg.mp hmem
        exact ⟨hps, (retained_iff p).mp hr⟩
      · obtain ⟨hps, hr, -⟩ := hu.mp hmem
        exact ⟨hps, (retained_iff p).mp hr⟩
    · rintro ⟨hps, hvp⟩
      have hr : retained p = true := (retained_iff p).mpr hvp
      cases hcl : classify p with
      | none => exact absurd hcl (detect_probes_classify ps (g, u) h p hps hr)
      | some b =>
        cases b
        · exact Or.inr (hu.mpr ⟨hps, hr, hcl⟩)
        · exact Or.inl (hg.mpr ⟨hps, hr, hcl⟩)
  · rintro ⟨hmg, hmu⟩
    have h1 := (hg.mp hmg).2.2
    have h2 := (hu.mp hmu).2.2
    rw [h1] at h2
    simp at h2
  · intro hmg
    exact (classify_eq_some_true_iff p).mp (hg.mp hmg).2.2
  · intro hmu
    exact classify_eq_some_false_not p (hu.mp hmu).2.2

/-- Witness for C3 on a concrete three-device enumeration: a control
interface, a data interface, and a foreign device. -/
theorem detect_probes_partition_witness :
    ((⟨"/dev/ttyUSB0", 0x0403, 0x6001, "FT1", "3-1:1.0", "FTDI"⟩ : Port) ∈
        [(⟨"/dev/ttyACM0", 0x1D50, 0x6018, "E2C0", "1-1:1.0", "Black Magic GDB Server"⟩ : Port)] ∨
      (⟨"/dev/ttyUSB0", 0x0403, 0x6001, "FT1", "3-1:1.0", "FTDI"⟩ : Port) ∈
        [(⟨"/dev/ttyACM1", 0x1D50, 0x6018, "E2C0", "1-1:1.2", "Black Magic UART Port"⟩ : Port)]) ↔
      ((⟨"/dev/ttyUSB0", 0x0403, 0x6001, "FT1", "3-1:1.0", "FTDI"⟩ : Port) ∈
        [(⟨"/dev/ttyACM0", 0x1D50, 0x6018, "E2C0", "1-1:1.0", "Black Magic GDB Server"⟩ : Port),
         (⟨"/dev/ttyACM1", 0x1D50, 0x6018, "E2C0", "1-1:1.2", "Black Magic UART Port"⟩ : Port),
         (⟨"/dev/ttyUSB0", 0x0403, 0x6001, "FT1", "3-1:1.0", "FTDI"⟩ : Port)] ∧
        (0x0403 : Nat) = 0x1D50 ∧ ((0x6001 : Nat) = 0x6018 ∨ (0x6001 : Nat) = 0x6017)) :=
  (detect_probes_partition
    [⟨"/dev/ttyACM0", 0x1D50, 0x6018, "E2C0", "1-1:1.0", "Black Magic GDB Server"⟩,
     ⟨"/dev/ttyACM1", 0x1D50, 0x6018, "E2C0", "1-1:1.2", "Black Magic UART Port"⟩,
     ⟨"/dev/ttyUSB0", 0x0403, 0x6001, "FT1", "3-1:1.0", "FTDI"⟩]
    [⟨"/dev/ttyACM0", 0x1D50, 0x6018, "E2C0", "1-1:1.0", "Black Magic GDB Server"⟩]
    [⟨"/dev/ttyACM1", 0x1D50, 0x6018, "E2C0", "1-1:1.2", "Black Magic UART Port"⟩]
    (by decide)
    ⟨"/dev/ttyUSB0", 0x0403, 0x6001, "FT1", "3-1:1.0", "FTDI"⟩).1

/-! ### C4 -/

theorem search_serial_none_iff (snr : String) : ∀ l : List Port,
    (search_serial snr l = none ↔ ∀ p ∈ l, ¬(snr.toList <:+: p.serial_number.toList))
  | [] => by simp [search_serial]
  | p :: l => by
    by_cases hp : snr.toList <:+: p.serial_number.toList
    · simp only [search_serial, if_pos hp]
      constructor
      · intro h; cases h
      · intro h; exact absurd hp (h p (by simp))
    · simp only [search_serial, if_neg hp]
      rw [search_serial_none_iff snr l]
      constructor
      · intro h q hq
        rcases List.mem_cons.mp hq with rfl | hq'
        · exact hp
        · exact h q hq'
      · intro h q hq
        exact h q (by simp [hq])

theorem search_serial_some_iff (snr : String) : ∀ (l : List Port) (d : String),
    search_serial snr l = some d ↔
      ∃ lpre q lsuf, l = lpre ++ q :: lsuf ∧
        (∀ x ∈ lpre, ¬(snr.toList <:+: x.serial_number.toList)) ∧
        (snr.toList <:+: q.serial_number.toList) ∧ d = q.device
  | [], d => by
    constructor
    · intro h
      simp [search_serial] at h
    · rintro ⟨lpre, q, lsuf, h, -, -, -⟩
      exact absurd h (by simp)
  | p :: l, d => by
    by_cases hp : snr.toList <:+: p.serial_number.toList
    · simp only [search_serial, if_pos hp, Option.some.injEq]
      constructor
      · rintro rfl
        exact ⟨[], p, l, by simp, by simp, hp, rfl⟩
      · rintro ⟨lpre, q, lsuf, heq, hpre, hq, rfl⟩
        cases lpre with
        | nil =>
          simp only [List.nil_append, List.cons.injEq] at heq
          obtain ⟨rfl, rfl⟩ := heq
          rfl
        | cons x xs =>
          simp only [List.cons_append, List.cons.injEq] at heq
          obtain ⟨rfl, -⟩ := heq
          exact absurd hp (hpre _ (by simp))
    · simp only [search_serial, if_neg hp]
      rw [search_serial_some_iff snr l d]
      constructor
      · rintro ⟨lpre, q, lsuf, rfl, hpre, hq, hd⟩
        refine ⟨p :: lpre, q, lsuf, by simp, ?_, hq, hd⟩
        intro x hx
        rcases List.mem_cons.mp hx with rfl | hx'
        · exact hp
        · exact hpre x hx'
      · rintro ⟨lpre, q, lsuf, heq, hpre, hq, hd⟩
        cases lpre with
        | nil =>
          simp only [List.nil_append, List.cons.injEq] at heq
          obtain ⟨rfl, rfl⟩ := heq
          exact absurd hq hp
        | cons x xs =>
          simp only [List.cons_append, List.cons.injEq] at heq
          obtain ⟨rfl, rfl⟩ := heq
          exact ⟨xs, q, lsuf, rfl, fun y hy => hpre y (by simp [hy]), hq, hd⟩

/-- C4: serial lookup returns the device path of the first entry whose
serial number contains the requested string as a substring, returns
nothing when no entry matches, and in that case the caller's `assert
port` makes the selection fail (NotFound, fatal). -/
theorem search_serial_spec (snr : String) (l : List Port) :
    (search_serial snr l = none ↔ ∀ p ∈ l, ¬(snr.toList <:+: p.serial_number.toList)) ∧
    (∀ d : String, search_serial snr l = some d ↔
      ∃ lpre q lsuf, l = lpre ++ q :: lsuf ∧
        (∀ x ∈ lpre, ¬(snr.toList <:+: x.serial_number.toList)) ∧
        (snr.toList <:+: q.serial_number.toList) ∧ d = q.device) ∧
    (snr ≠ "" → (∀ p ∈ l, ¬(snr.toList <:+: p.serial_number.toList)) →
      ∀ dflt : String, choosePort none (some snr) dflt l = .error ()) := by
  refine ⟨search_serial_none_iff snr l, fun d => search_serial_some_iff snr l d, ?_⟩
  intro hne hnone dflt
  have h1 : search_serial snr l = none := (search_serial_none_iff snr l).mpr hnone
  simp [choosePort, truthyS, hne, h1]

/-- Witness for C4: a second-entry substring match, and a NotFound
selection failure. -/
theorem search_serial_spec_witness :
    (search_serial "34"
      [⟨"/dev/ttyACM0", 0x1D50, 0x6018, "E2C0D1FF", "1-1:1.0", "Black Magic GDB Server"⟩,
       ⟨"/dev/ttyACM1", 0x1D50, 0x6018, "1234AB", "1-1:1.2", "Black Magic UART Port"⟩] =
      some "/dev/ttyACM1") ∧
    choosePort none (some "ZZ") "/dev/default"
      [⟨"/dev/ttyACM1", 0x1D50, 0x6018, "1234AB", "1-1:1.2", "Black Magic UART Port"⟩] =
      .error () := by
  constructor
  · exact ((search_serial_spec "34"
      [⟨"/dev/ttyACM0", 0x1D50, 0x6018, "E2C0D1FF", "1-1:1.0", "Black Magic GDB Server"⟩,
       ⟨"/dev/ttyACM1", 0x1D50, 0x6018, "1234AB", "1-1:1.2", "Black Magic UART Port"⟩]).2.1
      "/dev/ttyACM1").mpr
      ⟨[⟨"/dev/ttyACM0", 0x1D50, 0x6018, "E2C0D1FF", "1-1:1.0", "Black Magic GDB Server"⟩],
       ⟨"/dev/ttyACM1", 0x1D50, 0x6018, "1234AB", "1-1:1.2", "Black Magic UART Port"⟩, [],
       rfl, by decide, by decide, rfl⟩
  · exact (search_serial_spec "ZZ"
      [⟨"/dev/ttyACM1", 0x1D50, 0x6018, "1234AB", "1-1:1.2", "Black Magic UART Port"⟩]).2.2
      (by decide) (by decide) "/dev/default"

/-! ### C6 -/

/-- C6 counterexample: a matching download event that lacks total-size,
arriving first, crashes the flash loop (`int(None)` in the banner print)
instead of leaving the reporter's prior state unchanged. -/
theorem flash_missing_total_size_crash :
    (matchDownload "+download,\x7bsection=\"a\",section-size=\"8\"\x7d".toList).isSome = true ∧
    (flashRun initFlashState
      [⟨"output", "", "+download,\x7bsection=\"a\",section-size=\"8\"\x7d"⟩,
       ⟨"result", "done", ""⟩]).2 = .error FlashErr.intError := by
  constructor
  · rfl
  · rfl

/-- C6 (amended): each of the five fields may independently be absent from
a matching progress message; an absent or empty section-sent capture and
an unchanged section leave the bar state untouched; but a matching event
lacking total-size while the one-time banner is still pending, or lacking
section-size on a section change, crashes the flash loop with a
`TypeError` from `int(None)` instead of leaving prior state unchanged. -/
theorem flash_optional_fields :
    (matchDownload "+download,\x7b\x7d".toList = some ⟨none, none, none, none, none⟩) ∧
    (matchDownload "+download,\x7bsection=\"a\",section-sent=\"4\",section-size=\"8\",total-sent=\"12\",total-size=\"100\"\x7d".toList
      = some ⟨some "a", some "4", some "8", some "12", some "100"⟩) ∧
    (matchDownload "+download,\x7bsection-sent=\"4\",section-size=\"8\",total-sent=\"12\",total-size=\"100\"\x7d".toList
      = some ⟨none, some "4", some "8", some "12", some "100"⟩) ∧
    (matchDownload "+download,\x7bsection=\"a\",section-size=\"8\",total-sent=\"12\",total-size=\"100\"\x7d".toList
      = some ⟨some "a", none, some "8", some "12", some "100"⟩) ∧
    (matchDownload "+download,\x7bsection=\"a\",section-sent=\"4\",total-sent=\"12\",total-size=\"100\"\x7d".toList
      = some ⟨some "a", some "4", none, some "12", some "100"⟩) ∧
    (matchDownload "+download,\x7bsection=\"a\",section-sent=\"4\",section-size=\"8\",total-size=\"100\"\x7d".toList
      = some ⟨some "a", some "4", some "8", none, some "100"⟩) ∧
    (matchDownload "+download,\x7bsection=\"a\",section-sent=\"4\",section-size=\"8\",total-sent=\"12\"\x7d".toList
      = some ⟨some "a", some "4", some "8", some "12", none⟩) ∧
    (∀ st gr, gr.secSent = none → sentStep st gr = .ok st) ∧
    (∀ st gr, gr.secSent = some "" → sentStep st gr = .ok st) ∧
    (∀ st gr, gr.sec = st.currentSec → secStep st gr = ([], .ok st)) ∧
    (∀ st gr, st.first = true → gr.totSize = none → bannerStep st gr = ([], .error .intError)) ∧
    (∀ st gr, gr.sec ≠ st.currentSec → gr.secSize = none →
      secStep st gr = ([], .error .intError)) := by
  refine ⟨by rfl, by rfl, by rfl, by rfl, by rfl, by rfl, by rfl, ?_, ?_, ?_, ?_, ?_⟩
  · intro st gr h; simp [sentStep, h]
  · intro st gr h; simp [sentStep, h]
  · intro st gr h; simp [secStep, h]
  · intro st gr h1 h2; simp [bannerStep, h1, h2, pyIntOpt]
  · intro st gr h1 h2; simp [secStep, h1, h2, pyIntOpt]

/-- Witness for C6's quantified parts: an event without section-sent
leaves the bar untouched; a pending banner with no total-size crashes. -/
theorem flash_optional_fields_witness :
    sentStep initFlashState ⟨some "a", none, some "8", none, none⟩ = .ok initFlashState ∧
    bannerStep initFlashState ⟨some "a", none, some "8", none, none⟩ =
      ([], .error FlashErr.intError) := by
  constructor
  · exact flash_optional_fields.2.2.2.2.2.2.2.1 initFlashState
      ⟨some "a", none, some "8", none, none⟩ rfl
  · exact flash_optional_fields.2.2.2.2.2.2.2.2.2.2.1 initFlashState
      ⟨some "a", none, some "8", none, none⟩ rfl rfl

/-! ### C7 -/

theorem bannerCount_append (l1 l2 : List FlashOut) :
    bannerCount (l1 ++ l2) = bannerCount l1 + bannerCount l2 := by
  unfold bannerCount
  exact List.countP_append _ _ _

theorem bannerStep_not_first {st : FlashState} (gr : DlGroups) (h : st.first = false) :
    bannerStep st gr = ([], .ok st) := by
  simp [bannerStep, h]

theorem secStep_bannerCount (st : FlashState) (gr : DlGroups) :
    bannerCount (secStep st gr).1 = 0 := by
  unfold secStep
  by_cases h : gr.sec ≠ st.currentSec
  · simp only [if_pos h]
    cases pyIntOpt gr.secSize <;> simp [bannerCount]
  · simp only [if_neg h]
    simp [bannerCount]

theorem secStep_first (st : FlashState) (gr : DlGroups) (st' : FlashState)
    (h : (secStep st gr).2 = .ok st') : st'.first = st.first := by
  unfold secStep at h
  by_cases hc : gr.sec ≠ st.currentSec
  · simp only [if_pos hc] at h
    cases hp : pyIntOpt gr.secSize with
    | none => rw [hp] at h; simp at h
    | some sz =>
      rw [hp] at h
      simp only [Except.ok.injEq] at h
      subst h
      rfl
  · simp only [if_neg hc] at h
    simp only [Except.ok.injEq] at h
    subst h
    rfl

theorem sentStep_first (st : FlashState) (gr : DlGroups) (st' : FlashState)
    (h : sentStep st gr = .ok st') : st'.first = st.first := by
  cases hss : gr.secSent with
  | none =>
    have he : sentStep st gr = .ok st := by
      unfold sentStep
      simp only [hss]
    rw [he] at h
    injection h with h
    subst h
    rfl
  | some s =>
    by_cases hs : s ≠ ""
    · cases hp : pyIntChars s.toList with
      | none =>
        have he : sentStep st gr = .error .intError := by
          unfold sentStep
          simp only [hss]
          rw [if_pos hs, hp]
        rw [he] at h
        cases h
      | some v =>
        have he : sentStep st gr = .ok { st with pbarVal := v } := by
          unfold sentStep
          simp only [hss]
          rw [if_pos hs, hp]
        rw [he] at h
        injection h with h
        subst h
        rfl
    · have he : sentStep st gr = .ok st := by
        unfold sentStep
        simp only [hss]
        rw [if_neg hs]
      rw [he] at h
      injection h with h
      subst h
      rfl

theorem bannerCount_banner_cons (n : Int) (l : List FlashOut) :
    bannerCount (FlashOut.banner n :: l) = bannerCount l + 1 := by
  unfold bannerCount
  rw [List.countP_cons]
  rfl

theorem bannerStep_cases (st : FlashState) (gr : DlGroups) :
    (st.first = false ∧ bannerStep st gr = ([], .ok st)) ∨
    (st.first = true ∧ bannerStep st gr = ([], .error .intError)) ∨
    (∃ n, st.first = true ∧ pyIntOpt gr.totSize = some n ∧
      bannerStep st gr = ([.banner n], .ok { st with first := false })) := by
  cases hf : st.first with
  | false => exact Or.inl ⟨rfl, by simp [bannerStep, hf]⟩
  | true =>
    cases hto : pyIntOpt gr.totSize with
    | none => exact Or.inr (Or.inl ⟨rfl, by simp [bannerStep, hf, hto]⟩)
    | some n => exact Or.inr (Or.inr ⟨n, rfl, rfl, by simp [bannerStep, hf, hto]⟩)

theorem flashStep_spec (st : FlashState) (m : Msg) :
    bannerCount (flashStep st m).1 ≤ 1 ∧
    (st.first = false → bannerCount (flashStep st m).1 = 0) ∧
    (∀ st' b, (flashStep st m).2 = .ok (st', b) →
      (st.first = false → st'.first = false) ∧
      (st'.first = true → bannerCount (flashStep st m).1 = 0)) := by
  by_cases hres : m.type = "result"
  · by_cases hd : m.message = "done"
    · have hstep : flashStep st m = ([.finished], .ok (st, false)) := by
        unfold flashStep
        rw [if_pos hres, if_pos hd]
      have e1 : (flashStep st m).1 = [.finished] := by rw [hstep]
      have e2 : (flashStep st m).2 = .ok (st, false) := by rw [hstep]
      rw [e1, e2]
      refine ⟨by decide, fun _ => by decide, ?_⟩
      intro st' b h
      simp only [Except.ok.injEq, Prod.mk.injEq] at h
      obtain ⟨rfl, -⟩ := h
      exact ⟨fun h0 => h0, fun _ => by decide⟩
    · have hstep : flashStep st m = ([], .error .failed) := by
        unfold flashStep
        rw [if_pos hres, if_neg hd]
      have e1 : (flashStep st m).1 = [] := by rw [hstep]
      have e2 : (flashStep st m).2 = .error .failed := by rw [hstep]
      rw [e1, e2]
      refine ⟨by decide, fun _ => by decide, ?_⟩
      intro st' b h
      cases h
  · by_cases hout : m.type = "output"
    · cases hmd : matchDownload m.payload.toList with
      | none =>
        have hstep : flashStep st m = ([], .ok (st, true)) := by
          unfold flashStep
          rw [if_neg hres, if_pos hout, hmd]
        have e1 : (flashStep st m).1 = [] := by rw [hstep]
        have e2 : (flashStep st m).2 = .ok (st, true) := by rw [hstep]
        rw [e1, e2]
        refine ⟨by decide, fun _ => by decide, ?_⟩
        intro st' b h
        simp only [Except.ok.injEq, Prod.mk.injEq] at h
        obtain ⟨rfl, -⟩ := h
        exact ⟨fun h0 => h0, fun _ => by decide⟩
      | some gr =>
        rcases bannerStep_cases st gr with ⟨hf, hban⟩ | ⟨hf, hban⟩ | ⟨n, hf, hto, hban⟩
        · rcases hsec : secStep st gr with ⟨o2, r2⟩
          have hc2 : bannerCount o2 = 0 := by
            have hx := secStep_bannerCount st gr
            rw [hsec] at hx
            exact hx
          cases r2 with
          | error e =>
            have hstep : flashStep st m = (o2, .error e) := by
              unfold flashStep
              rw [if_neg hres, if_pos hout, hmd]
              simp only [hban, hsec, List.nil_append]
            have e1 : (flashStep st m).1 = o2 := by rw [hstep]
            have e2 : (flashStep st m).2 = .error e := by rw [hstep]
            rw [e1, e2]
            refine ⟨by simp [hc2], fun _ => hc2, ?_⟩
            intro st' b h
            cases h
          | ok st2 =>
            have h2 : st2.first = st.first := by
              have hx := secStep_first st gr st2
              rw [hsec] at hx
              exact hx rfl
            cases hsent : sentStep st2 gr with
            | error e3 =>
              have hstep : flashStep st m = (o2, .error e3) := by
                unfold flashStep
                rw [if_neg hres, if_pos hout, hmd]
                simp only [hban, hsec, hsent, List.nil_append]
              have e1 : (flashStep st m).1 = o2 := by rw [hstep]
              have e2 : (flashStep st m).2 = .error e3 := by rw [hstep]
              rw [e1, e2]
              refine ⟨by simp [hc2], fun _ => hc2, ?_⟩
              intro st' b h
              cases h
            | ok st3 =>
              have h3 : st3.first = st2.first := sentStep_first st2 gr st3 hsent
              have hstep : flashStep st m = (o2, .ok (st3, true)) := by
                unfold flashStep
                rw [if_neg hres, if_pos hout, hmd]
                simp only [hban, hsec, hsent, List.nil_append]
              have e1 : (flashStep st m).1 = o2 := by rw [hstep]
              have e2 : (flashStep st m).2 = .ok (st3, true) := by rw [hstep]
              rw [e1, e2]
              refine ⟨by simp [hc2], fun _ => hc2, ?_⟩
              intro st' b h
              simp only [Except.ok.injEq, Prod.mk.injEq] at h
              obtain ⟨rfl, -⟩ := h
              constructor
              · intro h0
                rw [h3, h2, h0]
              · intro _
                exact hc2
        · have hstep : flashStep st m = ([], .error .intError) := by
            unfold flashStep
            rw [if_neg hres, if_pos hout, hmd]
            simp only [hban]
          have e1 : (flashStep st m).1 = [] := by rw [hstep]
          have e2 : (flashStep st m).2 = .error .intError := by rw [hstep]
          rw [e1, e2]
          refine ⟨by decide, fun _ => by decide, ?_⟩
          intro st' b h
          cases h
        · rcases hsec : secStep { st with first := false } gr with ⟨o2, r2⟩
          have hc2 : bannerCount o2 = 0 := by
            have hx := secStep_bannerCount { st with first := false } gr
            rw [hsec] at hx
            exact hx
          have hcnt : bannerCount (FlashOut.banner n :: o2) = 1 := by
            rw [bannerCount_banner_cons, hc2]
          cases r2 with
          | error e =>
            have hstep : flashStep st m = ([.banner n] ++ o2, .error e) := by
              unfold flashStep
              rw [if_neg hres, if_pos hout, hmd]
              simp only [hban, hsec]
            have e1 : (flashStep st m).1 = FlashOut.banner n :: o2 := by
              rw [hstep, List.singleton_append]
            have e2 : (flashStep st m).2 = .error e := by rw [hstep]
            rw [e1, e2]
            refine ⟨by simp [hcnt], fun h0 => ?_, ?_⟩
            · rw [hf] at h0
              simp at h0
            · intro st' b h
              cases h
          | ok st2 =>
            have h2 : st2.first = false := by
              have hx := secStep_first { st with first := false } gr st2
              rw [hsec] at hx
              exact hx rfl
            cases hsent : sentStep st2 gr with
            | error e3 =>
              have hstep : flashStep st m = ([.banner n] ++ o2, .error e3) := by
                unfold flashStep
                rw [if_neg hres, if_pos hout, hmd]
                simp only [hban, hsec, hsent]
              have e1 : (flashStep st m).1 = FlashOut.banner n :: o2 := by
                rw [hstep, List.singleton_append]
              have e2 : (flashStep st m).2 = .error e3 := by rw [hstep]
              rw [e1, e2]
              refine ⟨by simp [hcnt], fun h0 => ?_, ?_⟩
              · rw [hf] at h0
                simp at h0
              · intro st' b h
                cases h
            | ok st3 =>
              have h3 : st3.first = false := by
                rw [sentStep_first st2 gr st3 hsent, h2]
              have hstep : flashStep st m = ([.banner n] ++ o2, .ok (st3, true)) := by
                unfold flashStep
                rw [if_neg hres, if_pos hout, hmd]
                simp only [hban, hsec, hsent]
              have e1 : (flashStep st m).1 = FlashOut.banner n :: o2 := by
                rw [hstep, List.singleton_append]
              have e2 : (flashStep st m).2 = .ok (st3, true) := by rw [hstep]
              rw [e1, e2]
              refine ⟨by simp [hcnt], fun h0 => ?_, ?_⟩
              · rw [hf] at h0
                simp at h0
              · intro st' b h
                simp only [Except.ok.injEq, Prod.mk.injEq] at h
                obtain ⟨rfl, -⟩ := h
                constructor
                · intro h0
                  rw [hf] at h0
                  simp at h0
                · intro h0
                  rw [h3] at h0
                  simp at h0
    · have hstep : flashStep st m = ([], .ok (st, true)) := by
        unfold flashStep
        rw [if_neg hres, if_neg hout]
      have e1 : (flashStep st m).1 = [] := by rw [hstep]
      have e2 : (flashStep st m).2 = .ok (st, true) := by rw [hstep]
      rw [e1, e2]
      refine ⟨by decide, fun _ => by decide, ?_⟩
      intro st' b h
      simp only [Except.ok.injEq, Prod.mk.injEq] at h
      obtain ⟨rfl, -⟩ := h
      exact ⟨fun h0 => h0, fun _ => by decide⟩

theorem flashRun_bannerCount_zero : ∀ (msgs : List Msg) (st : FlashState),
    st.first = false → bannerCount (flashRun st msgs).1 = 0
  | [], st => by intro h; simp [flashRun, bannerCount]
  | m :: rest, st => by
    intro h
    obtain ⟨h1, h2, h3⟩ := flashStep_spec st m
    rcases hstep : flashStep st m with ⟨o, r⟩
    rw [hstep] at h1 h2 h3
    have ho : bannerCount o = 0 := h2 h
    cases r with
    | error e =>
      simp only [flashRun, hstep]
      exact ho
    | ok p =>
      rcases p with ⟨st', b⟩
      have hst' : st'.first = false := ((h3 st' b rfl).1) h
      cases b
      · simp only [flashRun, hstep]
        exact ho
      · simp only [flashRun, hstep]
        rw [bannerCount_append, ho, flashRun_bannerCount_zero rest st' hst']

theorem flashRun_bannerCount_le_one : ∀ (msgs : List Msg) (st : FlashState),
    bannerCount (flashRun st msgs).1 ≤ 1
  | [], st => by simp [flashRun, bannerCount]
  | m :: rest, st => by
    obtain ⟨h1, h2, h3⟩ := flashStep_spec st m
    rcases hstep : flashStep st m with ⟨o, r⟩
    rw [hstep] at h1 h2 h3
    have ho1 : bannerCount o ≤ 1 := h1
    cases r with
    | error e =>
      simp only [flashRun, hstep]
      exact ho1
    | ok p =>
      rcases p with ⟨st', b⟩
      cases b
      · simp only [flashRun, hstep]
        exact ho1
      · simp only [flashRun, hstep]
        rw [bannerCount_append]
        cases hst' : st'.first with
        | false =>
          rw [flashRun_bannerCount_zero rest st' hst']
          simpa using ho1
        | true =>
          have ho0 : bannerCount o = 0 := (h3 st' true rfl).2 hst'
          rw [ho0]
          simpa using flashRun_bannerCount_le_one rest st'

theorem flashRun_bannerCount_one : ∀ (msgs : List Msg) (st : FlashState),
    st.first = true → firstDlOk msgs = true → bannerCount (flashRun st msgs).1 = 1
  | [], st => by intro h hf; simp [firstDlOk] at hf
  | m :: rest, st => by
    intro hfirst hf
    by_cases hres : m.type = "result"
    · simp [firstDlOk, hres] at hf
    · by_cases hout : m.type = "output"
      · cases hmd : matchDownload m.payload.toList with
        | none =>
          have hf' : firstDlOk rest = true := by
            simp only [firstDlOk, if_neg hres, if_pos hout, hmd] at hf
            exact hf
          have hstep : flashStep st m = ([], .ok (st, true)) := by
            unfold flashStep
            rw [if_neg hres, if_pos hout, hmd]
          simp only [flashRun, hstep]
          simp only [List.nil_append]
          exact flashRun_bannerCount_one rest st hfirst hf'
        | some gr =>
          have hto : (pyIntOpt gr.totSize).isSome = true := by
            simp only [firstDlOk, if_neg hres, if_pos hout, hmd] at hf
            exact hf
          obtain ⟨n, hn⟩ := Option.isSome_iff_exists.mp hto
          have hb : bannerStep st gr = ([.banner n], .ok { st with first := false }) := by
            simp [bannerStep, hfirst, hn]
          rcases hsec : secStep { st with first := false } gr with ⟨o2, r2⟩
          have hc2 : bannerCount o2 = 0 := by
            have hx := secStep_bannerCount { st with first := false } gr
            rw [hsec] at hx
            exact hx
          cases r2 with
          | error e =>
            have hstep : flashStep st m = ([.banner n] ++ o2, .error e) := by
              unfold flashStep
              rw [if_neg hres, if_pos hout, hmd]
              simp only [hb, hsec]
            simp only [flashRun, hstep]
            rw [List.singleton_append, bannerCount_banner_cons, hc2]
          | ok st2 =>
            have h2 : st2.first = false := by
              have hx := secStep_first { st with first := false } gr st2
              rw [hsec] at hx
              exact hx rfl
            cases hsent : sentStep st2 gr with
            | error e3 =>
              have hstep : flashStep st m = ([.banner n] ++ o2, .error e3) := by
                unfold flashStep
                rw [if_neg hres, if_pos hout, hmd]
                simp only [hb, hsec, hsent]
              simp only [flashRun, hstep]
              rw [List.singleton_append, bannerCount_banner_cons, hc2]
            | ok st3 =>
              have h3 : st3.first = false := by
                rw [sentStep_first st2 gr st3 hsent, h2]
              have hstep : flashStep st m = ([.banner n] ++ o2, .ok (st3, true)) := by
                unfold flashStep
                rw [if_neg hres, if_pos hout, hmd]
                simp only [hb, hsec, hsent]
              simp only [flashRun, hstep]
              rw [bannerCount_append, flashRun_bannerCount_zero rest st3 h3,
                List.singleton_append, bannerCount_banner_cons, hc2]
      · have hf' : firstDlOk rest = true := by
          simp only [firstDlOk, if_neg hres, if_neg hout] at hf
          exact hf
        have hstep : flashStep st m = ([], .ok (st, true)) := by
          unfold flashStep
          rw [if_neg hres, if_neg hout]
        simp only [flashRun, hstep]
        simp only [List.nil_append]
        exact flashRun_bannerCount_one rest st hfirst hf'

/-- C7 counterexample: a flash download that completes with zero progress
events prints the total-size banner zero times, not once. -/
theorem flash_banner_zero_events :
    flashRun initFlashState [⟨"result", "done", ""⟩] =
      ([FlashOut.finished], .ok (some initFlashState)) ∧
    bannerCount (flashRun initFlashState [⟨"result", "done", ""⟩]).1 = 0 := by
  constructor
  · rfl
  · rfl

/-- C7 (amended): over any reply stream, the flash loop prints the
one-time total-size banner at most once, and exactly once as soon as a
matching progress event (with a parseable total size) is observed before
the terminating result. -/
theorem flash_banner_at_most_once (msgs : List Msg) :
    bannerCount (flashRun initFlashState msgs).1 ≤ 1 ∧
    (firstDlOk msgs = true → bannerCount (flashRun initFlashState msgs).1 = 1) :=
  ⟨flashRun_bannerCount_le_one msgs initFlashState,
   fun h => flashRun_bannerCount_one msgs initFlashState rfl h⟩

/-- Witness for C7's conditional part: two progress events, one banner. -/
theorem flash_banner_at_most_once_witness :
    bannerCount (flashRun initFlashState
      [⟨"output", "", "+download,\x7bsection=\"a\",section-size=\"8\",total-size=\"20\"\x7d"⟩,
       ⟨"output", "", "+download,\x7bsection=\"b\",section-size=\"4\",total-size=\"20\"\x7d"⟩,
       ⟨"result", "done", ""⟩]).1 = 1 :=
  (flash_banner_at_most_once
    [⟨"output", "", "+download,\x7bsection=\"a\",section-size=\"8\",total-size=\"20\"\x7d"⟩,
     ⟨"output", "", "+download,\x7bsection=\"b\",section-size=\"4\",total-size=\"20\"\x7d"⟩,
     ⟨"result", "done", ""⟩]).2 (by rfl)

/-! ### C8 -/

/-- C8 counterexample: supplying both `--serial` (with the empty string)
and `--port` does not abort: the empty value is falsy, the
mutual-exclusivity assert passes, and the device list is enumerated. -/
theorem exclusive_empty_serial_no_abort :
    mainRun
      { jtag := false, swd := false, connect_srst := false, tpwr := false,
        serial := some "", port := some "/dev/ttyACM0", attach := "1",
        gdb_path := "gdb-multiarch", term_cmd := "screen %s 115200",
        action := "list", file := none }
      { ports := [], replies := [] } =
      ([Ev.enumerate], .fatalAssert "no Black Magic Probes found") := by
  rfl

/-- C8 (amended): supplying both `--jtag` and `--swd`, or both `--serial`
and `--port` with truthy (non-empty) values, aborts with a failed assert
before any device access: the event trace is empty, so the device list is
never enumerated.  An empty-string value is falsy, so such a pair is not
rejected. -/
theorem exclusive_flags_abort (a : Args) (env : Env)
    (h : (a.swd = true ∧ a.jtag = true) ∨
      (truthyS a.serial = true ∧ truthyS a.port = true)) :
    (mainRun a env).1 = [] ∧ ∃ msg, (mainRun a env).2 = .fatalAssert msg := by
  by_cases h1 : (a.swd && a.jtag) = true
  · refine ⟨by simp [mainRun, h1], "you may only choose one protocol", by simp [mainRun, h1]⟩
  · rcases h with ⟨hs, hj⟩ | ⟨hs, hp⟩
    · rw [hs, hj] at h1
      simp at h1
    · have h2 : (truthyS a.serial && truthyS a.port) = true := by rw [hs, hp]; rfl
      refine ⟨by simp [mainRun, h1, h2],
        "you may only specify the probe by port or by serial", by simp [mainRun, h1, h2]⟩

/-- Witness for C8 (amended): truthy values for both probe options. -/
theorem exclusive_flags_abort_witness :
    (mainRun
      { jtag := false, swd := false, connect_srst := false, tpwr := false,
        serial := some "ABC", port := some "/dev/ttyACM0", attach := "1",
        gdb_path := "gdb-multiarch", term_cmd := "screen %s 115200",
        action := "flash", file := some "fw.elf" }
      { ports := [], replies := [] }).1 = [] ∧
    ∃ msg, (mainRun
      { jtag := false, swd := false, connect_srst := false, tpwr := false,
        serial := some "ABC", port := some "/dev/ttyACM0", attach := "1",
        gdb_path := "gdb-multiarch", term_cmd := "screen %s 115200",
        action := "flash", file := some "fw.elf" }
      { ports := [], replies := [] }).2 = .fatalAssert msg :=
  exclusive_flags_abort _ _ (Or.inr ⟨rfl, rfl⟩)

/-! ### C9 -/

/-- A GDB command that attaches to a target, erases flash, or starts a
flash download. -/
def forbiddenCmd (c : String) : Prop :=
  "-target-attach ".toList.isPrefixOf c.toList = true ∨
  c = "-target-flash-erase" ∨ c = "-target-download"

theorem select_not_forbidden (p : String) :
    ¬ forbiddenCmd ("-target-select extended-remote " ++ p) := by
  rintro (h | h | h)
  · rw [List.isPrefixOf_iff_prefix, List.prefix_iff_eq_take,
      show ("-target-select extended-remote " ++ p).toList =
        "-target-select extended-remote ".toList ++ p.toList from String.data_append _ _,
      List.take_append_eq_append_take,
      show "-target-attach ".toList.length - "-target-select extended-remote ".toList.length = 0
        from rfl,
      List.take_zero, List.append_nil] at h
    exact absurd h (by decide)
  · have hl := congrArg String.length h
    rw [String.length_append,
      show "-target-select extended-remote ".length = 31 from rfl,
      show "-target-flash-erase".length = 19 from rfl] at hl
    omega
  · have hl := congrArg String.length h
    rw [String.length_append,
      show "-target-select extended-remote ".length = 31 from rfl,
      show "-target-download".length = 16 from rfl] at hl
    omega

instance (c : String) : Decidable (forbiddenCmd c) := by
  unfold forbiddenCmd
  infer_instance

theorem optWrite_mem {e : Ev} {f : Bool} {cmd : String} {rs : List (List Msg)}
    (h : e ∈ (optWrite f cmd rs).1) : e = .writeCmd cmd := by
  unfold optWrite at h
  split at h
  · simpa using h
  · simp at h

theorem scan_cmd_not_forbidden (b : Bool) : ¬ forbiddenCmd (scanCmdOf b) := by
  cases b
  · rw [show scanCmdOf false = "monitor swdp_scan" from rfl]
    decide
  · rw [show scanCmdOf true = "monitor jtag_scan" from rfl]
    decide

theorem scripted_list_cmds (a : Args) (port : String) (rs : List (List Msg))
    (ha : a.action = "list") (tr : List Ev) (h : scripted a port rs = (tr, .exitOk)) :
    (∃ ts, ts ≠ [] ∧ Ev.printTargets ts ∈ tr) ∧
    (∀ c, Ev.writeCmd c ∈ tr → ¬ forbiddenCmd c) := by
  unfold scripted at h
  rw [ha] at h
  split at h
  · simp at h
  · simp at h
  · split at h
    · simp only [] at h
      split at h
      · simp at h
      · simp at h
      · rename_i ts hdt
        split at h
        · simp at h
        · rename_i hlen
          simp only [Prod.mk.injEq] at h
          obtain ⟨htr, -⟩ := h
          have hts : ts ≠ [] := by
            intro hnil
            subst hnil
            simp at hlen
          subst htr
          constructor
          · exact ⟨ts, hts, by simp⟩
          · intro c hc
            simp only [List.append_assoc, List.mem_append, List.mem_cons,
              List.not_mem_nil, or_false, List.mem_singleton] at hc
            rcases hc with (hc | hc) | hc | hc | hc | hc
            · simp at hc
            · injection hc with hc
              subst hc
              exact select_not_forbidden port
            · have he := optWrite_mem hc
              injection he with he
              subst he
              decide
            · have he := optWrite_mem hc
              injection he with he
              subst he
              decide
            · injection hc with hc
              subst hc
              exact scan_cmd_not_forbidden a.jtag
            · simp at hc
    · rename_i hne
      exact absurd rfl hne

/-- C9: when the action is `list` and the run exits successfully, the
target list is printed (non-empty) and no attach, erase, or download
command is ever written to the debugger. -/
theorem list_action_no_flash_cmds (a : Args) (env : Env) (tr : List Ev)
    (ha : a.action = "list") (h : mainRun a env = (tr, .exitOk)) :
    (∃ ts, ts ≠ [] ∧ Ev.printTargets ts ∈ tr) ∧
    (∀ c, Ev.writeCmd c ∈ tr → ¬ forbiddenCmd c) := by
  unfold mainRun at h
  rw [ha] at h
  split at h
  · simp at h
  · split at h
    · simp at h
    · split at h
      · simp at h
      · split at h
        · simp at h
        · rw [if_neg (by decide : ¬("list" : String) = "term")] at h
          split at h
          · simp at h
          · rename_i port hport
            rw [if_neg (by decide : ¬("list" : String) = "debug")] at h
            simp only [Prod.mk.injEq] at h
            obtain ⟨htr, hout⟩ := h
            have hsc : scripted a port env.replies =
                ((scripted a port env.replies).1, Outcome.exitOk) := by
              rw [← hout]
            obtain ⟨hts, hcmds⟩ := scripted_list_cmds a port env.replies ha
              (scripted a port env.replies).1 hsc
            subst htr
            constructor
            · obtain ⟨ts, hts1, hts2⟩ := hts
              exact ⟨ts, hts1, by simp [hts2]⟩
            · intro c hc
              simp only [List.mem_cons] at hc
              rcases hc with hc | hc
              · simp at hc
              · exact hcmds c hc

/-- Witness for C9: a full concrete `list` run over one probe. -/
theorem list_action_no_flash_cmds_witness :
    (∃ ts, ts ≠ [] ∧ Ev.printTargets ts ∈
      [Ev.enumerate, Ev.spawnGdb "gdb-multiarch",
       Ev.writeCmd "-target-select extended-remote /dev/ttyACM0",
       Ev.writeCmd "monitor swdp_scan", Ev.printTargets ["STM32F4"]]) ∧
    (∀ c, Ev.writeCmd c ∈
      [Ev.enumerate, Ev.spawnGdb "gdb-multiarch",
       Ev.writeCmd "-target-select extended-remote /dev/ttyACM0",
       Ev.writeCmd "monitor swdp_scan", Ev.printTargets ["STM32F4"]] → ¬ forbiddenCmd c) :=
  list_action_no_flash_cmds
    { jtag := false, swd := false, connect_srst := false, tpwr := false,
      serial := none, port := none, attach := "1", gdb_path := "gdb-multiarch",
      term_cmd := "screen %s 115200", action := "list", file := none }
    { ports := [⟨"/dev/ttyACM0", 0x1D50, 0x6018, "E2C0", "1-1:1.0", "Black Magic GDB Server"⟩],
      replies := [[⟨"result", "connected", ""⟩],
        [⟨"target", "", "1 STM32F4\\n"⟩, ⟨"result", "done", ""⟩]] }
    [Ev.enumerate, Ev.spawnGdb "gdb-multiarch",
     Ev.writeCmd "-target-select extended-remote /dev/ttyACM0",
     Ev.writeCmd "monitor swdp_scan", Ev.printTargets ["STM32F4"]]
    rfl (by rfl)

/-! ### C10 -/

/-- C10: for the `term` action, only the control-interface assert guards
the run; with at least one control interface but zero data interfaces the
unguarded `u[0].device` raises `IndexError` instead of the probes-not-found
diagnostic, even before `--port`/`--serial` could have been consulted. -/
theorem term_no_uart_index_error (a : Args) (env : Env) (g u : List Port)
    (ha : a.action = "term") (hsp : (a.swd && a.jtag) = false)
    (hs : truthyS a.serial = false) (_hp : truthyS a.port = false)
    (hd : detect_probes env.ports = some (g, u)) (hg : g ≠ []) (hu : u = []) :
    (mainRun a env).2 = .pyError "IndexError" ∧
    ∀ msg, (mainRun a env).2 ≠ .fatalAssert msg := by
  obtain ⟨g0, gtail, rfl⟩ := List.exists_cons_of_ne_nil hg
  subst hu
  have hmain : mainRun a env = ([.enumerate], .pyError "IndexError") := by
    simp [mainRun, hsp, hs, hd, ha]
  rw [hmain]
  exact ⟨rfl, fun msg h => by cases h⟩

/-- Witness for C10: one control interface, no data interface. -/
theorem term_no_uart_index_error_witness :
    (mainRun
      { jtag := false, swd := false, connect_srst := false, tpwr := false,
        serial := none, port := none, attach := "1", gdb_path := "gdb-multiarch",
        term_cmd := "screen %s 115200", action := "term", file := none }
      { ports := [⟨"/dev/ttyACM0", 0x1D50, 0x6018, "E2C0", "1-1:1.0",
          "Black Magic GDB Server"⟩], replies := [] }).2 = .pyError "IndexError" ∧
    ∀ msg, (mainRun
      { jtag := false, swd := false, connect_srst := false, tpwr := false,
        serial := none, port := none, attach := "1", gdb_path := "gdb-multiarch",
        term_cmd := "screen %s 115200", action := "term", file := none }
      { ports := [⟨"/dev/ttyACM0", 0x1D50, 0x6018, "E2C0", "1-1:1.0",
          "Black Magic GDB Server"⟩], replies := [] }).2 ≠ .fatalAssert msg :=
  term_no_uart_index_error _ _
    [⟨"/dev/ttyACM0", 0x1D50, 0x6018, "E2C0", "1-1:1.0", "Black Magic GDB Server"⟩] []
    rfl rfl rfl rfl (by rfl) (by simp) rfl

end Bmp
